import Mathlib

set_option allowUnsafeReducibility true
attribute [semireducible] Rat.add Rat.mul Rat.div Rat.sub Rat.neg Rat.inv

/-!
Verification development for the eos OpenCV draw utilities
(`include/eos/render/opencv/draw_utils.hpp`): the wireframe renderer
`draw_wireframe` and the UV overlay renderer `draw_texcoords`.

Numeric model: C++ `float`/`double` arithmetic is embedded with exact
rationals (`ℚ`).  OpenCV (`cv::Mat`, `cv::line`, `cv::Scalar`, `cv::Point`,
`cv::Point2f`) is an external library: canvases, colors and points are
embedded as data, and the opaque line-rasterization primitive `cv::line`
is carried as an explicit function parameter; the renderers are state
passing over the canvas and additionally expose their emitted draw-call
trace.  The helpers `project` (render/matrix_projection.hpp),
`are_vertices_ccw_in_screen_space` (render/detail/utils.hpp) and
`core::Mesh` (core/Mesh.hpp) are declared outside of the available source
and are modelled from the spec where noted.
-/

namespace EosDraw

/-- A 2D point with rational coordinates (embedding `Eigen::Vector2f`). -/
structure Vec2 where
  x : ℚ
  y : ℚ

/-- A 3D point with rational coordinates (embedding `Eigen::Vector3f`). -/
structure Vec3 where
  x : ℚ
  y : ℚ
  z : ℚ

/-- A 4D vector with rational coordinates (embedding `Eigen::Vector4f`).
Also used for the viewport descriptor (origin x, origin y, width, height). -/
structure Vec4 where
  x : ℚ
  y : ℚ
  z : ℚ
  w : ℚ

/-- A 4x4 matrix with rational entries, stored as four rows
(embedding `Eigen::Matrix4f`). -/
structure Mat4 where
  r0 : Vec4
  r1 : Vec4
  r2 : Vec4
  r3 : Vec4

/-- Dot product of two 4-vectors. -/
def dot4 (a b : Vec4) : ℚ :=
  a.x * b.x + a.y * b.y + a.z * b.z + a.w * b.w

/-- Matrix-vector product `M * v` for a 4x4 matrix and a 4-vector. -/
def mulVec4 (m : Mat4) (v : Vec4) : Vec4 :=
  ⟨dot4 m.r0 v, dot4 m.r1 v, dot4 m.r2 v, dot4 m.r3 v⟩

/-- The homogeneous lift of a 3D point: `(x, y, z, 1)`
(embedding `point.homogeneous()`). -/
def homog (p : Vec3) : Vec4 :=
  ⟨p.x, p.y, p.z, 1⟩

/-- Modelled from the spec: `project` of render/matrix_projection.hpp is not
in the available source.  Per §4.1 of the spec it applies model-view then
projection to the homogeneous point, performs the perspective division of
x, y, z by w, and maps the normalized device coordinates into viewport
pixel space with `screen_x = viewport.x + (ndc_x+1)/2 * viewport.width`
and `screen_y = viewport.y + (1-ndc_y)/2 * viewport.height` (y-flip);
depth is carried through as the (unconsumed) z component. -/
def project (point : Vec3) (modelview : Mat4) (projection : Mat4)
    (viewport : Vec4) : Vec3 :=
  let clip := mulVec4 projection (mulVec4 modelview (homog point))
  let ndcX := clip.x / clip.w
  let ndcY := clip.y / clip.w
  let ndcZ := clip.z / clip.w
  { x := viewport.x + (ndcX + 1) / 2 * viewport.z
    y := viewport.y + (1 - ndcY) / 2 * viewport.w
    z := ndcZ }

/-- The signed-area cross product of the edge vectors `v1 - v0` and
`v2 - v0`: `dx01 * dy02 - dy01 * dx02`. -/
def cross2 (v0 v1 v2 : Vec2) : ℚ :=
  (v1.x - v0.x) * (v2.y - v0.y) - (v1.y - v0.y) * (v2.x - v0.x)

/-- Modelled from the spec: `are_vertices_ccw_in_screen_space` of
render/detail/utils.hpp is not in the available source.  Per §4.2 of the
spec it computes the signed area via the cross product of the edge
vectors `v1 - v0` and `v2 - v0` and classifies counter-clockwise winding
under the y-down screen convention; in raw screen coordinates (y growing
downward) that winding corresponds to a negative raw signed area, and
zero-area (collinear) triples are classified as not-CCW. -/
def are_vertices_ccw_in_screen_space (v0 v1 v2 : Vec2) : Bool :=
  cross2 v0 v1 v2 < 0

/-- Modelled from the spec: the spec-side characterisation of
"counter-clockwise under the y-down screen convention", written
independently of the classifier: flip the y axis (to recover the usual
mathematical orientation) and ask for strictly positive signed area. -/
def ccwYDown (v0 v1 v2 : Vec2) : Prop :=
  0 < cross2 ⟨v0.x, -v0.y⟩ ⟨v1.x, -v1.y⟩ ⟨v2.x, -v2.y⟩

instance (v0 v1 v2 : Vec2) : Decidable (ccwYDown v0 v1 v2) := by
  unfold ccwYDown; infer_instance

/-- Modelled from the spec: `core::Mesh` (core/Mesh.hpp) is not in the
available source.  Per §3 of the spec it carries an ordered sequence of
vertex positions, an ordered sequence of triangles (triples of indices
into the vertex sequence) and an optional aligned sequence of per-vertex
UV coordinates. -/
structure Mesh where
  vertices : List Vec3
  tvi : List (ℕ × ℕ × ℕ)
  texcoords : List Vec2

/-- Fetch a vertex by index; out-of-range access is a precondition
violation in the source and is totalised here with an arbitrary default. -/
def Mesh.vertexAt (mesh : Mesh) (i : ℕ) : Vec3 :=
  mesh.vertices.getD i ⟨0, 0, 0⟩

/-- Fetch a UV coordinate by index; out-of-range access is a precondition
violation in the source and is totalised here with an arbitrary default. -/
def Mesh.texcoordAt (mesh : Mesh) (i : ℕ) : Vec2 :=
  mesh.texcoords.getD i ⟨0, 0⟩

/-- A 4-component `cv::Scalar` value (channels `v0 v1 v2 v3`; for 4-channel
canvases OpenCV reads these as blue, green, red, alpha). -/
structure Scalar where
  v0 : ℚ
  v1 : ℚ
  v2 : ℚ
  v3 : ℚ
deriving DecidableEq

/-- The default wireframe color `cv::Scalar(0, 255, 0, 255)`:
opaque green in BGR order. -/
def defaultWireframeColor : Scalar := ⟨0, 255, 0, 255⟩

/-- The fixed UV edge color: the source writes `cv::Scalar(255.0f, 0.0f,
0.0f)`, and `cv::Scalar`'s omitted fourth component defaults to `0`, so
the stored value is `(255, 0, 0, 0)` — blue in BGR with alpha 0. -/
def texcoordsColor : Scalar := ⟨255, 0, 0, 0⟩

/-- An endpoint handed to `cv::line`: either an integer `cv::Point`
(built from floats, hence truncated) or a floating `cv::Point2f`. -/
inductive CvPoint where
  | int (x y : ℤ) : CvPoint
  | float (x y : ℚ) : CvPoint
deriving DecidableEq

/-- Whether the endpoint is an integer `cv::Point`. -/
def CvPoint.isInt : CvPoint → Bool
  | .int _ _ => true
  | .float _ _ => false

/-- Truncation of a rational toward zero, the semantics of the C++
float-to-int conversion performed by `cv::Point`'s constructor. -/
def ratTruncToInt (q : ℚ) : ℤ :=
  q.num.tdiv (q.den : ℤ)

/-- Embedding of `cv::Point(p.x(), p.y())`: both screen components truncated to int. -/
def cvPointOf (p : Vec3) : CvPoint :=
  .int (ratTruncToInt p.x) (ratTruncToInt p.y)

/-- One call to the `cv::line` primitive: two endpoints and a color. -/
structure DrawCall where
  a : CvPoint
  b : CvPoint
  color : Scalar
deriving DecidableEq

/-- A `cv::Mat` canvas: dimensions, channel count, and pixel contents
(the value stored at each row/column position). -/
structure CvMat where
  rows : ℕ
  cols : ℕ
  channels : ℕ
  pixel : ℕ → ℕ → Scalar

/-- The default-constructed `cv::Mat()`: no rows, no columns. -/
def CvMat.null : CvMat :=
  ⟨0, 0, 0, fun _ _ => ⟨0, 0, 0, 0⟩⟩

/-- Embedding of `image.empty()` for the canvases arising here: no allocated extent. -/
def CvMat.isEmpty (m : CvMat) : Bool :=
  m.rows = 0 || m.cols = 0

/-- Embedding of `cv::Mat(512, 512, CV_8UC4, Scalar(0.0f, 0.0f, 0.0f, 255.0f))`:
a 512x512 4-channel canvas filled with opaque black. -/
def freshTexcoordsCanvas : CvMat :=
  ⟨512, 512, 4, fun _ _ => ⟨0, 0, 0, 255⟩⟩

/-- The type of the external `cv::line` rasterization primitive: it maps a
canvas and one draw call to the updated canvas.  It is opaque to this
development and is passed explicitly to the renderers. -/
def LinePrim : Type :=
  CvMat → DrawCall → CvMat

/-- A sample line primitive used only to instantiate universally
quantified statements: it marks integer endpoints' pixels with the call's
color and leaves everything else untouched. -/
def sampleLine : LinePrim := fun m call =>
  let mark : CvPoint → (ℕ → ℕ → Scalar) → ℕ → ℕ → Scalar :=
    fun p f r c =>
      match p with
      | .int px py => if (r : ℤ) = py ∧ (c : ℤ) = px then call.color else f r c
      | .float _ _ => f r c
  { m with pixel := mark call.b (mark call.a m.pixel) }

/-- The draw calls `draw_wireframe` issues for one triangle: project the
three vertices, and if the screen-space winding test passes, the three
edges `p1-p2`, `p2-p3`, `p3-p1` with the given color; otherwise none. -/
def wireframeTriCalls (mesh : Mesh) (modelview projection : Mat4)
    (viewport : Vec4) (color : Scalar) (tri : ℕ × ℕ × ℕ) : List DrawCall :=
  let p1 := project (mesh.vertexAt tri.1) modelview projection viewport
  let p2 := project (mesh.vertexAt tri.2.1) modelview projection viewport
  let p3 := project (mesh.vertexAt tri.2.2) modelview projection viewport
  if are_vertices_ccw_in_screen_space ⟨p1.x, p1.y⟩ ⟨p2.x, p2.y⟩ ⟨p3.x, p3.y⟩ then
    [⟨cvPointOf p1, cvPointOf p2, color⟩,
     ⟨cvPointOf p2, cvPointOf p3, color⟩,
     ⟨cvPointOf p3, cvPointOf p1, color⟩]
  else []

/-- The full draw-call trace of `draw_wireframe`: triangles in mesh order. -/
def wireframeCalls (mesh : Mesh) (modelview projection : Mat4)
    (viewport : Vec4) (color : Scalar) : List DrawCall :=
  mesh.tvi.flatMap (wireframeTriCalls mesh modelview projection viewport color)

/-- Embedding of `draw_wireframe` (draw_utils.hpp lines 52-68), state passing over the
canvas: for each triangle of `mesh.tvi`, project the three vertices,
test the screen-space winding, and if counter-clockwise issue the three
`cv::line` calls with integer endpoints; the mutated canvas is the
returned value. -/
def draw_wireframe (line : LinePrim) (image : CvMat) (mesh : Mesh)
    (modelview projection : Mat4) (viewport : Vec4)
    (color : Scalar := defaultWireframeColor) : CvMat :=
  mesh.tvi.foldl
    (fun img tri =>
      (wireframeTriCalls mesh modelview projection viewport color tri).foldl line img)
    image

/-- The draw calls `draw_texcoords` issues for one triangle: the three UV
edges, each endpoint a `cv::Point2f` with U scaled by `image.cols` and V
scaled by `image.rows`, in the fixed color. -/
def texcoordsTriCalls (mesh : Mesh) (image : CvMat)
    (tri : ℕ × ℕ × ℕ) : List DrawCall :=
  let uvPt : ℕ → CvPoint := fun i =>
    .float ((mesh.texcoordAt i).x * image.cols) ((mesh.texcoordAt i).y * image.rows)
  [⟨uvPt tri.1, uvPt tri.2.1, texcoordsColor⟩,
   ⟨uvPt tri.2.1, uvPt tri.2.2, texcoordsColor⟩,
   ⟨uvPt tri.2.2, uvPt tri.1, texcoordsColor⟩]

/-- The full draw-call trace of `draw_texcoords` onto a given canvas. -/
def texcoordsCalls (mesh : Mesh) (image : CvMat) : List DrawCall :=
  mesh.tvi.flatMap (texcoordsTriCalls mesh image)

/-- The triangle loop of `draw_texcoords`: for every triangle of
`mesh.tvi`, issue its three UV edge draw calls into the canvas. -/
def texcoordsLoop (line : LinePrim) (mesh : Mesh) (start : CvMat) : CvMat :=
  mesh.tvi.foldl
    (fun img tri => (texcoordsTriCalls mesh img tri).foldl line img)
    start

/-- Embedding of `draw_texcoords` (draw_utils.hpp lines 82-109): if the supplied canvas
is empty, allocate the 512x512 opaque-black 4-channel canvas; then for
every triangle draw its three UV edges (`Point2f` endpoints scaled by the
canvas extent, fixed color) and return the canvas. -/
def draw_texcoords (line : LinePrim) (mesh : Mesh)
    (image : CvMat := CvMat.null) : CvMat :=
  texcoordsLoop line mesh (if image.isEmpty then freshTexcoordsCanvas else image)

/-! Helper lemmas on the signed-area cross product. -/

lemma cross2_cyclic (a b c : Vec2) : cross2 b c a = cross2 a b c := by
  unfold cross2; ring

lemma cross2_swap12 (a b c : Vec2) : cross2 b a c = -cross2 a b c := by
  unfold cross2; ring

lemma cross2_swap23 (a b c : Vec2) : cross2 a c b = -cross2 a b c := by
  unfold cross2; ring

lemma cross2_swap13 (a b c : Vec2) : cross2 c b a = -cross2 a b c := by
  unfold cross2; ring

lemma cross2_negY (a b c : Vec2) :
    cross2 ⟨a.x, -a.y⟩ ⟨b.x, -b.y⟩ ⟨c.x, -c.y⟩ = -cross2 a b c := by
  unfold cross2; ring

lemma ccw_iff_cross_neg (a b c : Vec2) :
    are_vertices_ccw_in_screen_space a b c = true ↔ cross2 a b c < 0 := by
  simp [are_vertices_ccw_in_screen_space]

lemma ccw_false_iff (a b c : Vec2) :
    are_vertices_ccw_in_screen_space a b c = false ↔ ¬ cross2 a b c < 0 := by
  simp [are_vertices_ccw_in_screen_space]

lemma ccwYDown_iff (a b c : Vec2) : ccwYDown a b c ↔ cross2 a b c < 0 := by
  unfold ccwYDown
  rw [cross2_negY]
  constructor <;> intro h <;> linarith

/-! Claim theorems for the orientation classifier. -/

/-- C2: the orientation classifier returns `true` exactly on triples wound
counter-clockwise under the y-down screen convention (`ccwYDown`, stated
independently as positive signed area after flipping the y axis), returns
`false` on clockwise triples, and returns `false` on collinear
(zero-signed-area) triples, so degenerate triangles are culled. -/
theorem are_vertices_ccw_correct (v0 v1 v2 : Vec2) :
    (are_vertices_ccw_in_screen_space v0 v1 v2 = true ↔ ccwYDown v0 v1 v2)
    ∧ (ccwYDown v0 v2 v1 → are_vertices_ccw_in_screen_space v0 v1 v2 = false)
    ∧ (cross2 v0 v1 v2 = 0 → are_vertices_ccw_in_screen_space v0 v1 v2 = false) := by
  refine ⟨?_, ?_, ?_⟩
  · rw [ccw_iff_cross_neg, ccwYDown_iff]
  · intro h
    rw [ccwYDown_iff, cross2_swap23] at h
    rw [ccw_false_iff]
    linarith
  · intro h
    rw [ccw_false_iff, h]
    exact lt_irrefl 0

/-- Witness for C2 at concrete points: `(0,0), (0,2), (3,1)` is
counter-clockwise under y-down and is classified `true`; the swapped
triple is classified `false`; the collinear triple `(0,0), (1,1), (2,2)`
is classified `false`. -/
theorem are_vertices_ccw_correct_witness :
    are_vertices_ccw_in_screen_space ⟨0, 0⟩ ⟨0, 2⟩ ⟨3, 1⟩ = true
    ∧ are_vertices_ccw_in_screen_space ⟨0, 0⟩ ⟨3, 1⟩ ⟨0, 2⟩ = false
    ∧ are_vertices_ccw_in_screen_space ⟨0, 0⟩ ⟨1, 1⟩ ⟨2, 2⟩ = false :=
  ⟨(are_vertices_ccw_correct ⟨0, 0⟩ ⟨0, 2⟩ ⟨3, 1⟩).1.mpr (by decide),
   (are_vertices_ccw_correct ⟨0, 0⟩ ⟨3, 1⟩ ⟨0, 2⟩).2.1 (by decide),
   (are_vertices_ccw_correct ⟨0, 0⟩ ⟨1, 1⟩ ⟨2, 2⟩).2.2 (by decide)⟩

lemma ccw_of_neg_cross {a b c : Vec2} (h : cross2 a b c < 0) :
    are_vertices_ccw_in_screen_space a b c = true :=
  (ccw_iff_cross_neg a b c).mpr h

lemma ccw_decide_flip {q : ℚ} (h : q ≠ 0) :
    decide (-q < 0) = !decide (q < 0) := by
  rcases lt_trichotomy q 0 with h1 | h1 | h1
  · have h2 : ¬(-q < 0) := by linarith
    simp [h1, h2]
  · exact absurd h1 h
  · have h2 : -q < 0 := by linarith
    have h3 : ¬(q < 0) := by linarith
    simp [h2, h3]

/-- C7: the orientation classification is invariant under cyclic
permutation of the three points and, for non-collinear inputs (nonzero
signed area), flips under a swap of any two points. -/
theorem ccw_permutation_behavior (p1 p2 p3 : Vec2) :
    are_vertices_ccw_in_screen_space p1 p2 p3 = are_vertices_ccw_in_screen_space p2 p3 p1
    ∧ are_vertices_ccw_in_screen_space p2 p3 p1 = are_vertices_ccw_in_screen_space p3 p1 p2
    ∧ (cross2 p1 p2 p3 ≠ 0 →
        are_vertices_ccw_in_screen_space p2 p1 p3 = !are_vertices_ccw_in_screen_space p1 p2 p3
        ∧ are_vertices_ccw_in_screen_space p1 p3 p2 = !are_vertices_ccw_in_screen_space p1 p2 p3
        ∧ are_vertices_ccw_in_screen_space p3 p2 p1 = !are_vertices_ccw_in_screen_space p1 p2 p3) := by
  refine ⟨?_, ?_, ?_⟩
  · unfold are_vertices_ccw_in_screen_space
    rw [cross2_cyclic p1 p2 p3]
  · unfold are_vertices_ccw_in_screen_space
    rw [cross2_cyclic p1 p2 p3, cross2_cyclic p3 p1 p2]
  · intro h
    refine ⟨?_, ?_, ?_⟩
    · unfold are_vertices_ccw_in_screen_space
      rw [cross2_swap12 p1 p2 p3]
      exact ccw_decide_flip h
    · unfold are_vertices_ccw_in_screen_space
      rw [cross2_swap23 p1 p2 p3]
      exact ccw_decide_flip h
    · unfold are_vertices_ccw_in_screen_space
      rw [cross2_swap13 p1 p2 p3]
      exact ccw_decide_flip h

/-- Witness for C7 at the concrete non-collinear triple
`(0,0), (0,2), (3,1)`. -/
theorem ccw_permutation_behavior_witness :
    are_vertices_ccw_in_screen_space (⟨0, 0⟩ : Vec2) ⟨0, 2⟩ ⟨3, 1⟩
      = are_vertices_ccw_in_screen_space ⟨0, 2⟩ ⟨3, 1⟩ ⟨0, 0⟩
    ∧ are_vertices_ccw_in_screen_space (⟨0, 2⟩ : Vec2) ⟨0, 0⟩ ⟨3, 1⟩
      = !are_vertices_ccw_in_screen_space ⟨0, 0⟩ ⟨0, 2⟩ ⟨3, 1⟩ :=
  ⟨(ccw_permutation_behavior ⟨0, 0⟩ ⟨0, 2⟩ ⟨3, 1⟩).1,
   ((ccw_permutation_behavior ⟨0, 0⟩ ⟨0, 2⟩ ⟨3, 1⟩).2.2 (by decide)).1⟩

/-- The identity 4x4 matrix, used as a concrete transform in witnesses. -/
def idMat4 : Mat4 :=
  ⟨⟨1, 0, 0, 0⟩, ⟨0, 1, 0, 0⟩, ⟨0, 0, 1, 0⟩, ⟨0, 0, 0, 1⟩⟩

/-- C3: the vertex projector applies model-view then projection to the
homogeneous point, divides x, y, z by the resulting w, and maps the
normalized device coordinates into viewport pixel space with
`screen_x = viewport.x + (ndc_x+1)/2 * width` and
`screen_y = viewport.y + (1-ndc_y)/2 * height` (y-flip), carrying the
depth through; with identity transforms this reduces to the direct
viewport mapping of the input point. -/
theorem project_correct (p : Vec3) (mv pr : Mat4) (vp : Vec4) :
    (project p mv pr vp =
      { x := vp.x + ((mulVec4 pr (mulVec4 mv (homog p))).x
               / (mulVec4 pr (mulVec4 mv (homog p))).w + 1) / 2 * vp.z
        y := vp.y + (1 - (mulVec4 pr (mulVec4 mv (homog p))).y
               / (mulVec4 pr (mulVec4 mv (homog p))).w) / 2 * vp.w
        z := (mulVec4 pr (mulVec4 mv (homog p))).z
               / (mulVec4 pr (mulVec4 mv (homog p))).w })
    ∧ project p idMat4 idMat4 vp =
      { x := vp.x + (p.x + 1) / 2 * vp.z
        y := vp.y + (1 - p.y) / 2 * vp.w
        z := p.z } := by
  constructor
  · rfl
  · simp only [project, idMat4, mulVec4, dot4, homog, Vec3.mk.injEq]
    norm_num

/-! Folding draw calls over the canvas. -/

lemma foldl_over_flatMap {α β γ : Type} (f : γ → β → γ) :
    ∀ (l : List α) (g : α → List β) (init : γ),
      l.foldl (fun acc x => (g x).foldl f acc) init = (l.flatMap g).foldl f init := by
  intro l
  induction l with
  | nil => intro g init; rfl
  | cons a t ih =>
    intro g init
    simp only [List.flatMap_cons, List.foldl_append, List.foldl_cons]
    exact ih g _

/-- Concrete one-triangle mesh whose single triangle is front-facing
under identity transforms and the demo viewport. -/
def meshFront : Mesh :=
  ⟨[⟨0, 0, 0⟩, ⟨1, 0, 0⟩, ⟨0, 1, 0⟩], [(0, 1, 2)], [⟨0, 0⟩, ⟨1, 0⟩, ⟨0, 1⟩]⟩

/-- The same triangle with its index order reversed: back-facing. -/
def meshBack : Mesh :=
  ⟨[⟨0, 0, 0⟩, ⟨1, 0, 0⟩, ⟨0, 1, 0⟩], [(0, 2, 1)], [⟨0, 0⟩, ⟨1, 0⟩, ⟨0, 1⟩]⟩

/-- A demo viewport: origin `(0,0)`, extent `2 x 2`. -/
def vpDemo : Vec4 := ⟨0, 0, 2, 2⟩

/-- C1: `draw_wireframe` is the fold of its draw-call trace over the
canvas, and per triangle that trace is all-or-nothing: exactly the three
edges `p1-p2`, `p2-p3`, `p3-p1` in the given color when the orientation
classifier reports counter-clockwise, and no draw call at all when it
does not. -/
theorem draw_wireframe_all_or_nothing (line : LinePrim) (image : CvMat)
    (mesh : Mesh) (mv pr : Mat4) (vp : Vec4) (color : Scalar) :
    draw_wireframe line image mesh mv pr vp color
      = (wireframeCalls mesh mv pr vp color).foldl line image
    ∧ ∀ tri : ℕ × ℕ × ℕ,
        (are_vertices_ccw_in_screen_space
            ⟨(project (mesh.vertexAt tri.1) mv pr vp).x, (project (mesh.vertexAt tri.1) mv pr vp).y⟩
            ⟨(project (mesh.vertexAt tri.2.1) mv pr vp).x, (project (mesh.vertexAt tri.2.1) mv pr vp).y⟩
            ⟨(project (mesh.vertexAt tri.2.2) mv pr vp).x, (project (mesh.vertexAt tri.2.2) mv pr vp).y⟩
            = true →
          wireframeTriCalls mesh mv pr vp color tri =
            [⟨cvPointOf (project (mesh.vertexAt tri.1) mv pr vp),
              cvPointOf (project (mesh.vertexAt tri.2.1) mv pr vp), color⟩,
             ⟨cvPointOf (project (mesh.vertexAt tri.2.1) mv pr vp),
              cvPointOf (project (mesh.vertexAt tri.2.2) mv pr vp), color⟩,
             ⟨cvPointOf (project (mesh.vertexAt tri.2.2) mv pr vp),
              cvPointOf (project (mesh.vertexAt tri.1) mv pr vp), color⟩])
        ∧ (are_vertices_ccw_in_screen_space
            ⟨(project (mesh.vertexAt tri.1) mv pr vp).x, (project (mesh.vertexAt tri.1) mv pr vp).y⟩
            ⟨(project (mesh.vertexAt tri.2.1) mv pr vp).x, (project (mesh.vertexAt tri.2.1) mv pr vp).y⟩
            ⟨(project (mesh.vertexAt tri.2.2) mv pr vp).x, (project (mesh.vertexAt tri.2.2) mv pr vp).y⟩
            = false →
          wireframeTriCalls mesh mv pr vp color tri = []) := by
  constructor
  · exact foldl_over_flatMap line mesh.tvi _ image
  · intro tri
    constructor
    · intro h
      simp only [wireframeTriCalls, h, if_true]
    · intro h
      simp only [wireframeTriCalls, h, Bool.false_eq_true, if_false]

/-- Witness for C1: the front-facing demo triangle yields exactly its
three edges; the reversed (back-facing) triangle yields nothing. -/
theorem draw_wireframe_all_or_nothing_witness :
    wireframeTriCalls meshFront idMat4 idMat4 vpDemo defaultWireframeColor (0, 1, 2)
      = [⟨CvPoint.int 1 1, CvPoint.int 2 1, defaultWireframeColor⟩,
         ⟨CvPoint.int 2 1, CvPoint.int 1 0, defaultWireframeColor⟩,
         ⟨CvPoint.int 1 0, CvPoint.int 1 1, defaultWireframeColor⟩]
    ∧ wireframeTriCalls meshBack idMat4 idMat4 vpDemo defaultWireframeColor (0, 2, 1) = [] := by
  constructor
  · have h := ((draw_wireframe_all_or_nothing sampleLine CvMat.null meshFront idMat4 idMat4
      vpDemo defaultWireframeColor).2 (0, 1, 2)).1 (by decide)
    rw [h]
    decide
  · exact ((draw_wireframe_all_or_nothing sampleLine CvMat.null meshBack idMat4 idMat4
      vpDemo defaultWireframeColor).2 (0, 2, 1)).2 (by decide)

/-! The UV overlay renderer. -/

/-- A line primitive preserves the canvas extent (true of `cv::line`,
which rasterizes into the existing buffer). -/
def PreservesDims (line : LinePrim) : Prop :=
  ∀ (m : CvMat) (call : DrawCall), (line m call).rows = m.rows ∧ (line m call).cols = m.cols

lemma sampleLine_preservesDims : PreservesDims sampleLine :=
  fun _ _ => ⟨rfl, rfl⟩

lemma texcoordsTriCalls_dims_eq (mesh : Mesh) {i1 i2 : CvMat}
    (hr : i1.rows = i2.rows) (hc : i1.cols = i2.cols) (tri : ℕ × ℕ × ℕ) :
    texcoordsTriCalls mesh i1 tri = texcoordsTriCalls mesh i2 tri := by
  simp only [texcoordsTriCalls, hr, hc]

lemma foldl_line_preserves_dims (line : LinePrim) (h : PreservesDims line) :
    ∀ (calls : List DrawCall) (m : CvMat),
      (calls.foldl line m).rows = m.rows ∧ (calls.foldl line m).cols = m.cols := by
  intro calls
  induction calls with
  | nil => intro m; exact ⟨rfl, rfl⟩
  | cons c t ih =>
    intro m
    rw [List.foldl_cons]
    exact ⟨(ih (line m c)).1.trans (h m c).1, (ih (line m c)).2.trans (h m c).2⟩

lemma texcoords_loop_base (line : LinePrim) (h : PreservesDims line) (mesh : Mesh)
    (base : CvMat) :
    ∀ (tvi : List (ℕ × ℕ × ℕ)) (img : CvMat),
      img.rows = base.rows → img.cols = base.cols →
      tvi.foldl (fun acc tri => (texcoordsTriCalls mesh acc tri).foldl line acc) img
        = tvi.foldl (fun acc tri => (texcoordsTriCalls mesh base tri).foldl line acc) img := by
  intro tvi
  induction tvi with
  | nil => intro img _ _; rfl
  | cons tri rest ih =>
    intro img hr hc
    simp only [List.foldl_cons]
    rw [texcoordsTriCalls_dims_eq mesh hr hc]
    exact ih _ ((foldl_line_preserves_dims line h _ img).1.trans hr)
      ((foldl_line_preserves_dims line h _ img).2.trans hc)

/-- The canvas `draw_texcoords` actually draws into: the supplied one, or
the freshly allocated default when the supplied one is empty. -/
def texcoordsTarget (image : CvMat) : CvMat :=
  if image.isEmpty then freshTexcoordsCanvas else image

/-- C4: `draw_texcoords` is the fold of its draw-call trace (computed
against the target canvas's extent) over that canvas, and per triangle
that trace is unconditionally the three UV edges — no orientation test,
no culling — with each endpoint the vertex's UV coordinate scaled by the
canvas width (U) and height (V). -/
theorem draw_texcoords_no_culling (line : LinePrim) (mesh : Mesh) (image : CvMat)
    (h : PreservesDims line) :
    draw_texcoords line mesh image
      = (texcoordsCalls mesh (texcoordsTarget image)).foldl line (texcoordsTarget image)
    ∧ ∀ (img : CvMat) (tri : ℕ × ℕ × ℕ),
        texcoordsTriCalls mesh img tri =
          [⟨CvPoint.float ((mesh.texcoordAt tri.1).x * img.cols) ((mesh.texcoordAt tri.1).y * img.rows),
            CvPoint.float ((mesh.texcoordAt tri.2.1).x * img.cols) ((mesh.texcoordAt tri.2.1).y * img.rows),
            texcoordsColor⟩,
           ⟨CvPoint.float ((mesh.texcoordAt tri.2.1).x * img.cols) ((mesh.texcoordAt tri.2.1).y * img.rows),
            CvPoint.float ((mesh.texcoordAt tri.2.2).x * img.cols) ((mesh.texcoordAt tri.2.2).y * img.rows),
            texcoordsColor⟩,
           ⟨CvPoint.float ((mesh.texcoordAt tri.2.2).x * img.cols) ((mesh.texcoordAt tri.2.2).y * img.rows),
            CvPoint.float ((mesh.texcoordAt tri.1).x * img.cols) ((mesh.texcoordAt tri.1).y * img.rows),
            texcoordsColor⟩] := by
  constructor
  · show mesh.tvi.foldl (fun acc tri => (texcoordsTriCalls mesh acc tri).foldl line acc)
        (texcoordsTarget image) = _
    rw [texcoords_loop_base line h mesh (texcoordsTarget image) mesh.tvi
      (texcoordsTarget image) rfl rfl]
    exact foldl_over_flatMap line mesh.tvi _ (texcoordsTarget image)
  · intro img tri
    rfl

/-- Witness for C4 with the sample line primitive (which preserves the
canvas extent) on the demo mesh with no supplied canvas. -/
theorem draw_texcoords_no_culling_witness :
    draw_texcoords sampleLine meshFront CvMat.null
      = (texcoordsCalls meshFront (texcoordsTarget CvMat.null)).foldl sampleLine
          (texcoordsTarget CvMat.null) :=
  (draw_texcoords_no_culling sampleLine meshFront CvMat.null sampleLine_preservesDims).1

/-- A concrete non-empty 10x10 canvas used in witnesses. -/
def demoCanvas : CvMat :=
  ⟨10, 10, 4, fun _ _ => ⟨7, 7, 7, 255⟩⟩

/-- C5: with no canvas supplied (the default `cv::Mat()`), the UV overlay
draws into a freshly allocated 512x512 4-channel canvas whose every pixel
is opaque black; with a non-empty canvas supplied, that canvas itself is
the one drawn into and returned. -/
theorem draw_texcoords_default_canvas (line : LinePrim) (mesh : Mesh) (image : CvMat) :
    draw_texcoords line mesh = texcoordsLoop line mesh freshTexcoordsCanvas
    ∧ freshTexcoordsCanvas.rows = 512
    ∧ freshTexcoordsCanvas.cols = 512
    ∧ freshTexcoordsCanvas.channels = 4
    ∧ (∀ r c : ℕ, freshTexcoordsCanvas.pixel r c = ⟨0, 0, 0, 255⟩)
    ∧ (image.isEmpty = false → draw_texcoords line mesh image = texcoordsLoop line mesh image) := by
  refine ⟨rfl, rfl, rfl, rfl, fun _ _ => rfl, ?_⟩
  intro h
  simp only [draw_texcoords, h, Bool.false_eq_true, if_false]

/-- Witness for C5: a supplied non-empty 10x10 canvas is the one drawn
into, and the default-canvas facts hold. -/
theorem draw_texcoords_default_canvas_witness :
    draw_texcoords sampleLine meshFront demoCanvas = texcoordsLoop sampleLine meshFront demoCanvas
    ∧ freshTexcoordsCanvas.rows = 512 :=
  ⟨(draw_texcoords_default_canvas sampleLine meshFront demoCanvas).2.2.2.2.2 rfl,
   (draw_texcoords_default_canvas sampleLine meshFront demoCanvas).2.1⟩

/-! Colors. -/

/-- Counterexample for C6: on a concrete one-triangle mesh the UV overlay
issues draw calls, and not every issued call carries a fully opaque
color — the fixed accent color is `cv::Scalar(255.0f, 0.0f, 0.0f)`, whose
omitted fourth (alpha) component defaults to `0`. -/
theorem texcoords_color_opacity_counterexample :
    ((texcoordsCalls meshFront freshTexcoordsCanvas).all fun call => call.color.v3 == 255) = false
    ∧ texcoordsCalls meshFront freshTexcoordsCanvas ≠ [] := by
  constructor
  · decide
  · decide

/-- C6 (amended): every UV edge drawn by `draw_texcoords` uses the one
fixed, caller-non-configurable accent color `(255, 0, 0, 0)` — blue in
BGR order with alpha `0`, not opaque — and the default edge color of
`draw_wireframe` is opaque green `(0, 255, 0, 255)`. -/
theorem texcoords_color_fixed (mesh : Mesh) (image : CvMat) :
    (∀ call ∈ texcoordsCalls mesh image, call.color = texcoordsColor)
    ∧ texcoordsColor = ⟨255, 0, 0, 0⟩
    ∧ defaultWireframeColor = ⟨0, 255, 0, 255⟩ := by
  refine ⟨?_, rfl, rfl⟩
  intro call hcall
  rw [texcoordsCalls, List.mem_flatMap] at hcall
  obtain ⟨tri, _, hc⟩ := hcall
  simp only [texcoordsTriCalls, List.mem_cons, List.not_mem_nil, or_false] at hc
  rcases hc with hc | hc | hc <;> subst hc <;> rfl

/-- Witness for C6 (amended): the first UV edge of the demo mesh on the
default canvas carries the fixed accent color. -/
theorem texcoords_color_fixed_witness :
    DrawCall.color ⟨CvPoint.float 0 0, CvPoint.float 512 0, ⟨255, 0, 0, 0⟩⟩ = texcoordsColor :=
  (texcoords_color_fixed meshFront freshTexcoordsCanvas).1
    ⟨CvPoint.float 0 0, CvPoint.float 512 0, ⟨255, 0, 0, 0⟩⟩ (by decide)

/-! Empty meshes, determinism, endpoint representation. -/

/-- A mesh with an empty triangle list. -/
def meshEmpty : Mesh :=
  ⟨[⟨0, 0, 0⟩, ⟨1, 0, 0⟩, ⟨0, 1, 0⟩], [], [⟨0, 0⟩, ⟨1, 0⟩, ⟨0, 1⟩]⟩

/-- C8: with an empty triangle list, `draw_wireframe` issues no draw
calls and returns the canvas unchanged, and `draw_texcoords` issues no
draw calls and returns the supplied non-empty canvas unmodified (or the
untouched freshly allocated default canvas when none is supplied). -/
theorem empty_mesh_no_draw_calls (line : LinePrim) (image : CvMat) (mesh : Mesh)
    (mv pr : Mat4) (vp : Vec4) (color : Scalar) (h : mesh.tvi = []) :
    draw_wireframe line image mesh mv pr vp color = image
    ∧ wireframeCalls mesh mv pr vp color = []
    ∧ texcoordsCalls mesh image = []
    ∧ draw_texcoords line mesh CvMat.null = freshTexcoordsCanvas
    ∧ (image.isEmpty = false → draw_texcoords line mesh image = image) := by
  refine ⟨?_, ?_, ?_, ?_, ?_⟩
  · simp [draw_wireframe, h]
  · simp [wireframeCalls, h]
  · simp [texcoordsCalls, h]
  · simp [draw_texcoords, texcoordsLoop, h, CvMat.isEmpty, CvMat.null]
  · intro hne
    simp [draw_texcoords, texcoordsLoop, h, hne]

/-- Witness for C8 on a concrete empty-triangle-list mesh and a concrete
non-empty canvas. -/
theorem empty_mesh_no_draw_calls_witness :
    draw_wireframe sampleLine demoCanvas meshEmpty idMat4 idMat4 vpDemo defaultWireframeColor
      = demoCanvas
    ∧ draw_texcoords sampleLine meshEmpty CvMat.null = freshTexcoordsCanvas
    ∧ draw_texcoords sampleLine meshEmpty demoCanvas = demoCanvas := by
  have h := empty_mesh_no_draw_calls sampleLine demoCanvas meshEmpty idMat4 idMat4 vpDemo
    defaultWireframeColor rfl
  exact ⟨h.1, h.2.2.2.1, h.2.2.2.2 rfl⟩

/-- C9: `draw_wireframe` is deterministic — two invocations with
identical mesh, transforms, viewport and color, on two canvases with
identical extents, channel counts and pixel contents, produce identical
canvases (in particular identical pixel contents). -/
theorem draw_wireframe_deterministic (line : LinePrim) (c1 c2 : CvMat) (mesh : Mesh)
    (mv pr : Mat4) (vp : Vec4) (color : Scalar)
    (hrows : c1.rows = c2.rows) (hcols : c1.cols = c2.cols)
    (hch : c1.channels = c2.channels)
    (hpix : ∀ r c : ℕ, c1.pixel r c = c2.pixel r c) :
    draw_wireframe line c1 mesh mv pr vp color = draw_wireframe line c2 mesh mv pr vp color := by
  have hfp : c1.pixel = c2.pixel := funext fun r => funext fun c => hpix r c
  obtain ⟨r1, co1, ch1, p1⟩ := c1
  obtain ⟨r2, co2, ch2, p2⟩ := c2
  simp only at hrows hcols hch hfp
  subst hrows; subst hcols; subst hch; subst hfp
  rfl

/-- A canvas with the same pixel contents as `demoCanvas` but a
syntactically different pixel function. -/
def demoCanvasAlt : CvMat :=
  ⟨10, 10, 4, fun r c => if r + c + 1 = 0 then ⟨1, 2, 3, 4⟩ else ⟨7, 7, 7, 255⟩⟩

/-- Witness for C9: two syntactically different canvases with identical
pixel contents yield identical results. -/
theorem draw_wireframe_deterministic_witness :
    draw_wireframe sampleLine demoCanvas meshFront idMat4 idMat4 vpDemo defaultWireframeColor
      = draw_wireframe sampleLine demoCanvasAlt meshFront idMat4 idMat4 vpDemo
          defaultWireframeColor :=
  draw_wireframe_deterministic sampleLine demoCanvas demoCanvasAlt meshFront idMat4 idMat4
    vpDemo defaultWireframeColor rfl rfl rfl
    (fun r c => by simp [demoCanvas, demoCanvasAlt])

/-- C10: every endpoint `draw_wireframe` hands to the line primitive is
an integer `cv::Point` obtained by truncating the projected screen
coordinates of some mesh vertex (`cvPointOf`, truncation toward zero of
each component), whereas every endpoint `draw_texcoords` hands to the
primitive is an untruncated floating `cv::Point2f`. -/
theorem wireframe_truncates_endpoints (mesh : Mesh) (mv pr : Mat4) (vp : Vec4)
    (color : Scalar) (image : CvMat) :
    (∀ call ∈ wireframeCalls mesh mv pr vp color, ∃ i j : ℕ,
        call.a = cvPointOf (project (mesh.vertexAt i) mv pr vp)
        ∧ call.b = cvPointOf (project (mesh.vertexAt j) mv pr vp))
    ∧ (∀ p : Vec3, cvPointOf p = CvPoint.int (ratTruncToInt p.x) (ratTruncToInt p.y))
    ∧ (∀ call ∈ texcoordsCalls mesh image,
        call.a.isInt = false ∧ call.b.isInt = false) := by
  refine ⟨?_, fun _ => rfl, ?_⟩
  · intro call hcall
    rw [wireframeCalls, List.mem_flatMap] at hcall
    obtain ⟨tri, _, hc⟩ := hcall
    simp only [wireframeTriCalls] at hc
    by_cases hccw : are_vertices_ccw_in_screen_space
        ⟨(project (mesh.vertexAt tri.1) mv pr vp).x, (project (mesh.vertexAt tri.1) mv pr vp).y⟩
        ⟨(project (mesh.vertexAt tri.2.1) mv pr vp).x, (project (mesh.vertexAt tri.2.1) mv pr vp).y⟩
        ⟨(project (mesh.vertexAt tri.2.2) mv pr vp).x, (project (mesh.vertexAt tri.2.2) mv pr vp).y⟩
        = true
    · rw [if_pos hccw] at hc
      simp only [List.mem_cons, List.not_mem_nil, or_false] at hc
      rcases hc with hc | hc | hc <;> subst hc
      · exact ⟨tri.1, tri.2.1, rfl, rfl⟩
      · exact ⟨tri.2.1, tri.2.2, rfl, rfl⟩
      · exact ⟨tri.2.2, tri.1, rfl, rfl⟩
    · rw [if_neg hccw] at hc
      exact absurd hc (List.not_mem_nil call)
  · intro call hcall
    rw [texcoordsCalls, List.mem_flatMap] at hcall
    obtain ⟨tri, _, hc⟩ := hcall
    simp only [texcoordsTriCalls, List.mem_cons, List.not_mem_nil, or_false] at hc
    rcases hc with hc | hc | hc <;> subst hc <;> exact ⟨rfl, rfl⟩

/-- Witness for C10: a concrete wireframe call has truncated integer
endpoints projected from mesh vertices; a concrete UV call has floating
endpoints. -/
theorem wireframe_truncates_endpoints_witness :
    (∃ i j : ℕ,
        DrawCall.a ⟨CvPoint.int 1 1, CvPoint.int 2 1, defaultWireframeColor⟩
          = cvPointOf (project (meshFront.vertexAt i) idMat4 idMat4 vpDemo)
        ∧ DrawCall.b ⟨CvPoint.int 1 1, CvPoint.int 2 1, defaultWireframeColor⟩
          = cvPointOf (project (meshFront.vertexAt j) idMat4 idMat4 vpDemo))
    ∧ CvPoint.isInt
        (DrawCall.a ⟨CvPoint.float 0 0, CvPoint.float 512 0, texcoordsColor⟩) = false :=
  ⟨(wireframe_truncates_endpoints meshFront idMat4 idMat4 vpDemo defaultWireframeColor
      freshTexcoordsCanvas).1
      ⟨CvPoint.int 1 1, CvPoint.int 2 1, defaultWireframeColor⟩ (by decide),
   ((wireframe_truncates_endpoints meshFront idMat4 idMat4 vpDemo defaultWireframeColor
      freshTexcoordsCanvas).2.2
      ⟨CvPoint.float 0 0, CvPoint.float 512 0, texcoordsColor⟩ (by decide)).1⟩

end EosDraw
